import Mathlib

/-!
Verification of the QuaxProject single-run fitting notebook
(`src/SingleRun/fitFunc.ipynb`).

The model functions (`bkg`, `gaussian`, `maxwell`, `signal_gauss`,
`signal_maxwell`) are embedded over the real numbers, mirroring the
source expressions; `bkg` keeps the complex-magnitude formulation of the
source (`abs(x-a+1j*b)**2 / abs(x-c+1j*d)**2`).  The two fit drivers
(`fit_bkg`, `fit_sig`) are embedded as the parameter/weight
configuration they hand to the fitting library, and `plot_fit` as the
pure data it renders plus the value it returns.
-/

noncomputable section

/-- Background model, from the source:
`e**2*abs(x-a+1j*b)**2/abs(x-c+1j*d)**2+f*(x-c)`. -/
def bkg (x a b c d e f : ℝ) : ℝ :=
  e ^ 2 * Complex.abs ((x : ℂ) - (a : ℂ) + Complex.I * (b : ℂ)) ^ 2 /
    Complex.abs ((x : ℂ) - (c : ℂ) + Complex.I * (d : ℂ)) ^ 2 + f * (x - c)

/-- Gaussian signal model, from the source:
`mu * np.exp(-.5*((x-x0)/s)**2)`. -/
def gaussian (x x0 s mu : ℝ) : ℝ :=
  mu * Real.exp (-(0.5) * ((x - x0) / s) ^ 2)

/-- Maxwell-Boltzmann signal model, from the source:
`mu * x**2/s**3 * np.exp(-.5*((x-x0)/s)**2)`. -/
def maxwell (x x0 s mu : ℝ) : ℝ :=
  mu * x ^ 2 / s ^ 3 * Real.exp (-(0.5) * ((x - x0) / s) ^ 2)

/-- Combined model, from the source: `bkg(...) + gaussian(...)`. -/
def signal_gauss (x a b c d e f x0 s mu : ℝ) : ℝ :=
  bkg x a b c d e f + gaussian x x0 s mu

/-- Combined model, from the source: `bkg(...) + maxwell(...)`. -/
def signal_maxwell (x a b c d e f x0 s mu : ℝ) : ℝ :=
  bkg x a b c d e f + maxwell x x0 s mu

/-- The closed real-arithmetic form of the background model, written
from the spec's words: `e²·((x−a)²+b²)/((x−c)²+d²) + f·(x−c)`. -/
def bkg_spec (x a b c d e f : ℝ) : ℝ :=
  e ^ 2 * (((x - a) ^ 2 + b ^ 2) / ((x - c) ^ 2 + d ^ 2)) + f * (x - c)

lemma bkg_closed (x a b c d e f : ℝ) :
    bkg x a b c d e f =
      e ^ 2 * ((x - a) ^ 2 + b ^ 2) / ((x - c) ^ 2 + d ^ 2) + f * (x - c) := by
  unfold bkg
  rw [Complex.sq_abs, Complex.sq_abs, Complex.normSq_apply, Complex.normSq_apply]
  simp only [Complex.add_re, Complex.sub_re, Complex.mul_re, Complex.I_re,
    Complex.I_im, Complex.add_im, Complex.sub_im, Complex.mul_im,
    Complex.ofReal_re, Complex.ofReal_im]
  ring_nf

/-- C2 counterexample: at `x=0, a=1, b=1, c=0, d=1`, the call
`bkg(x,a,b,c,d,0,0)` (last two arguments `0` and `0`) returns `0`, not
the ratio `((x−a)²+b²)/((x−c)²+d²) = 2`. -/
theorem bkg_e0_f0_ne_ratio :
    bkg 0 1 1 0 1 0 0 ≠
      (((0 : ℝ) - 1) ^ 2 + 1 ^ 2) / (((0 : ℝ) - 0) ^ 2 + 1 ^ 2) := by
  rw [bkg_closed]
  norm_num

/-- C2 (amended): with the two trailing arguments `e = 1, f = 0` — the
case the spec names — `bkg(x,a,b,c,d,1,0)` equals the closed
real-arithmetic ratio `((x−a)²+b²)/((x−c)²+d²)` whenever the
denominator is nonzero. -/
theorem bkg_unit_e_zero_f (x a b c d : ℝ) (h : (x - c) ^ 2 + d ^ 2 ≠ 0) :
    bkg x a b c d 1 0 = ((x - a) ^ 2 + b ^ 2) / ((x - c) ^ 2 + d ^ 2) := by
  rw [bkg_closed]
  field_simp

theorem bkg_unit_e_zero_f_witness :
    (((2 : ℝ) - 0) ^ 2 + 1 ^ 2 ≠ 0) ∧
      bkg 2 1 3 0 1 1 0 =
        (((2 : ℝ) - 1) ^ 2 + 3 ^ 2) / (((2 : ℝ) - 0) ^ 2 + 1 ^ 2) :=
  ⟨by norm_num, bkg_unit_e_zero_f 2 1 3 0 1 (by norm_num)⟩

/-- C4: the implemented complex-magnitude `bkg` coincides with the
closed real-arithmetic form `bkg_spec` wherever `(x−c)²+d² ≠ 0`: the
two formulations embed the same function. -/
theorem bkg_refines_spec (x a b c d e f : ℝ) (h : (x - c) ^ 2 + d ^ 2 ≠ 0) :
    bkg x a b c d e f = bkg_spec x a b c d e f := by
  rw [bkg_closed]
  unfold bkg_spec
  rw [mul_div_assoc]

theorem bkg_refines_spec_witness :
    (((0 : ℝ) - 0) ^ 2 + 1 ^ 2 ≠ 0) ∧ bkg 0 0 1 0 1 2 3 = bkg_spec 0 0 1 0 1 2 3 :=
  ⟨by norm_num, bkg_refines_spec 0 0 1 0 1 2 3 (by norm_num)⟩

/-- C7: the combined models decompose additively and exactly:
`signal_gauss − bkg = gaussian` and `signal_maxwell − bkg = maxwell`,
for every parameter set. -/
theorem signal_decomposition (x a b c d e f x0 s mu : ℝ) :
    signal_gauss x a b c d e f x0 s mu - bkg x a b c d e f =
        gaussian x x0 s mu ∧
      signal_maxwell x a b c d e f x0 s mu - bkg x a b c d e f =
        maxwell x x0 s mu := by
  unfold signal_gauss signal_maxwell
  constructor <;> ring

/-- C9: `bkg` is invariant under negating any of `b`, `d` or `e`, since
each enters only through a squared magnitude; their signs are not
identifiable from the model's output. -/
theorem bkg_sign_invariance (x a b c d e f : ℝ) :
    bkg x a (-b) c d e f = bkg x a b c d e f ∧
      bkg x a b c (-d) e f = bkg x a b c d e f ∧
      bkg x a b c d (-e) f = bkg x a b c d e f := by
  refine ⟨?_, ?_, ?_⟩ <;> rw [bkg_closed, bkg_closed] <;> ring

/-- C10: the Maxwell-Boltzmann shape is the Gaussian shape multiplied by
the prefactor `x²/s³` (for `s ≠ 0`), and in particular it vanishes at
`x = 0` for every parameter choice. -/
theorem maxwell_prefactor_of_gaussian (x x0 s mu : ℝ) (hs : s ≠ 0) :
    maxwell x x0 s mu = x ^ 2 / s ^ 3 * gaussian x x0 s mu ∧
      maxwell 0 x0 s mu = 0 := by
  unfold maxwell gaussian
  constructor
  · ring
  · norm_num

theorem maxwell_prefactor_of_gaussian_witness :
    ((1 : ℝ) ≠ 0) ∧
      (maxwell 2 0 1 3 = 2 ^ 2 / 1 ^ 3 * gaussian 2 0 1 3 ∧
        maxwell 0 0 1 3 = 0) :=
  ⟨by norm_num, maxwell_prefactor_of_gaussian 2 0 1 3 (by norm_num)⟩

/-! ### Fit configuration

`fit_bkg` and `fit_sig` only build an lmfit parameter set and hand it,
together with the data and the weights `1/w`, to `Model.fit`.  We embed
one lmfit parameter as its configuration record (initial value,
optional bounds, vary flag; lmfit's defaults are unbounded and free),
and each driver as the full configuration it passes to the library. -/

/-- One lmfit parameter configuration: initial `value`, optional lower
and upper bounds (`none` = unbounded, lmfit's default `-inf`/`inf`),
and whether the optimizer may vary it (lmfit default `true`). -/
structure ParamCfg where
  value : ℝ
  lo : Option ℝ
  hi : Option ℝ
  vary : Bool

/-- The six background parameters built by `fit_bkg`'s `make_params`. -/
structure BkgParams where
  a : ParamCfg
  b : ParamCfg
  c : ParamCfg
  d : ParamCfg
  e : ParamCfg
  f : ParamCfg

/-- The mapping with keys `a..f` that `fit_sig` receives as
`init_params` (the background fit's best-fit values). -/
structure InitParams where
  a : ℝ
  b : ℝ
  c : ℝ
  d : ℝ
  e : ℝ
  f : ℝ

/-- The nine parameters built by `fit_sig`'s `make_params`. -/
structure SigParams where
  a : ParamCfg
  b : ParamCfg
  c : ParamCfg
  d : ParamCfg
  e : ParamCfg
  f : ParamCfg
  mu : ParamCfg
  x0 : ParamCfg
  s : ParamCfg

/-- The signal shape passed to `fit_sig` as the function argument
`signal`: one of the two combined models. -/
inductive SignalShape
  | gauss
  | maxwell

/-- Evaluation of the chosen combined model. -/
def signalEval : SignalShape → ℝ → ℝ → ℝ → ℝ → ℝ → ℝ → ℝ → ℝ → ℝ → ℝ → ℝ
  | SignalShape.gauss => signal_gauss
  | SignalShape.maxwell => signal_maxwell

/-- Everything `fit_bkg` hands to `Model(bkg).fit`: data, parameter
configuration and the weights `1/w`. -/
structure BkgFitCall where
  xdata : List ℝ
  ydata : List ℝ
  params : BkgParams
  weights : List ℝ

/-- Everything `fit_sig` hands to `Model(signal).fit`. -/
structure SigFitCall where
  shape : SignalShape
  xdata : List ℝ
  ydata : List ℝ
  params : SigParams
  weights : List ℝ

/-- `fit_bkg`, from the source: parameter seeds
`a = {value: center, min: center*0.999, max: center*1.01}`, `b = 2e4`,
`c` like `a`, `d = 2.2e4`, `e = 1e-2*np.sqrt(ref)`, `f = 1e-12*ref`,
then `bkg_model.fit(y, x=x, params=ps, weights=1/w)`. -/
def fit_bkg (x y w : List ℝ) (center ref : ℝ) : BkgFitCall where
  xdata := x
  ydata := y
  params :=
    { a := ⟨center, some (center * 0.999), some (center * 1.01), true⟩
      b := ⟨2e4, none, none, true⟩
      c := ⟨center, some (center * 0.999), some (center * 1.01), true⟩
      d := ⟨2.2e4, none, none, true⟩
      e := ⟨1e-2 * Real.sqrt ref, none, none, true⟩
      f := ⟨1e-12 * ref, none, none, true⟩ }
  weights := w.map (fun t => 1 / t)

/-- `fit_sig`, from the source: `a..f` seeded from `init_params` with
`vary = par_vary`; `mu = {value: mu_init, min: 0, vary: mu_vary}`;
`x0 = {value: x_0, vary: False}`; `s = {value: 16*651, vary: False}`;
then `sig_model.fit(y, x=x, params=ps, weights=1/w)`. -/
def fit_sig (x y w : List ℝ) (x_0 : ℝ) (init_params : InitParams)
    (signal : SignalShape) (mu_init : ℝ) (mu_vary par_vary : Bool) :
    SigFitCall where
  shape := signal
  xdata := x
  ydata := y
  params :=
    { a := ⟨init_params.a, none, none, par_vary⟩
      b := ⟨init_params.b, none, none, par_vary⟩
      c := ⟨init_params.c, none, none, par_vary⟩
      d := ⟨init_params.d, none, none, par_vary⟩
      e := ⟨init_params.e, none, none, par_vary⟩
      f := ⟨init_params.f, none, none, par_vary⟩
      mu := ⟨mu_init, some 0, none, mu_vary⟩
      x0 := ⟨x_0, none, none, false⟩
      s := ⟨16 * 651, none, none, false⟩ }
  weights := w.map (fun t => 1 / t)

/-- Modelled from the spec: lmfit's `Model.fit` (library code, not in
this repository) holds a parameter configured with `vary = False` fixed
during optimization, so its best-fit value is exactly its initial
value; only a free parameter takes the value the solver finds. -/
def fittedValue (p : ParamCfg) (solver : ℝ) : ℝ :=
  if p.vary then solver else p.value

/-- C5: `fit_bkg` configures exactly the documented initial guesses —
`a` and `c` at `center`, bounded to `[0.999·center, 1.01·center]`;
`b = 2·10⁴`; `d = 2.2·10⁴`; `e = 10⁻²·√ref`; `f = 10⁻¹²·ref`; all six
free to vary — and fits with weights `1/w` elementwise. -/
theorem fit_bkg_config (x y w : List ℝ) (center ref : ℝ) :
    (fit_bkg x y w center ref).params.a.value = center ∧
      (fit_bkg x y w center ref).params.a.lo = some (0.999 * center) ∧
      (fit_bkg x y w center ref).params.a.hi = some (1.01 * center) ∧
      (fit_bkg x y w center ref).params.a.vary = true ∧
      (fit_bkg x y w center ref).params.b.value = 20000 ∧
      (fit_bkg x y w center ref).params.b.vary = true ∧
      (fit_bkg x y w center ref).params.c.value = center ∧
      (fit_bkg x y w center ref).params.c.lo = some (0.999 * center) ∧
      (fit_bkg x y w center ref).params.c.hi = some (1.01 * center) ∧
      (fit_bkg x y w center ref).params.c.vary = true ∧
      (fit_bkg x y w center ref).params.d.value = 22000 ∧
      (fit_bkg x y w center ref).params.d.vary = true ∧
      (fit_bkg x y w center ref).params.e.value = Real.sqrt ref / 100 ∧
      (fit_bkg x y w center ref).params.e.vary = true ∧
      (fit_bkg x y w center ref).params.f.value = ref / 1000000000000 ∧
      (fit_bkg x y w center ref).params.f.vary = true ∧
      (fit_bkg x y w center ref).weights = w.map (fun t => 1 / t) := by
  unfold fit_bkg
  norm_num [mul_comm]
  ring_nf
  norm_num

/-- C6: `fit_sig` configures the signal parameters as documented —
`mu` starts at `mu_init`, lower-bounded by `0`, free exactly when
`mu_vary`; `x0` fixed at `x_0`; `s` fixed at `16·651 = 10416` — and
fits the chosen combined model with weights `1/w` elementwise. -/
theorem fit_sig_signal_config (x y w : List ℝ) (x_0 : ℝ)
    (init_params : InitParams) (signal : SignalShape) (mu_init : ℝ)
    (mu_vary par_vary : Bool) :
    (fit_sig x y w x_0 init_params signal mu_init mu_vary par_vary).params.mu.value
        = mu_init ∧
      (fit_sig x y w x_0 init_params signal mu_init mu_vary par_vary).params.mu.lo
        = some 0 ∧
      (fit_sig x y w x_0 init_params signal mu_init mu_vary par_vary).params.mu.vary
        = mu_vary ∧
      (fit_sig x y w x_0 init_params signal mu_init mu_vary par_vary).params.x0.value
        = x_0 ∧
      (fit_sig x y w x_0 init_params signal mu_init mu_vary par_vary).params.x0.vary
        = false ∧
      (fit_sig x y w x_0 init_params signal mu_init mu_vary par_vary).params.s.value
        = 16 * 651 ∧
      (fit_sig x y w x_0 init_params signal mu_init mu_vary par_vary).params.s.value
        = 10416 ∧
      (fit_sig x y w x_0 init_params signal mu_init mu_vary par_vary).params.s.vary
        = false ∧
      (fit_sig x y w x_0 init_params signal mu_init mu_vary par_vary).weights
        = w.map (fun t => 1 / t) ∧
      (fit_sig x y w x_0 init_params signal mu_init mu_vary par_vary).shape
        = signal := by
  unfold fit_sig
  norm_num

/-- C1: with `par_vary = false`, every background parameter `a..f` in
`fit_sig`'s configuration is marked fixed (`vary = false`), so whatever
values the solver would propose for them, the fitted values equal the
supplied `init_params` exactly. -/
theorem fit_sig_fixed_background (x y w : List ℝ) (x_0 : ℝ)
    (init_params : InitParams) (signal : SignalShape) (mu_init : ℝ)
    (mu_vary : Bool) (sa sb sc sd se sf : ℝ) :
    (fit_sig x y w x_0 init_params signal mu_init mu_vary false).params.a.vary
        = false ∧
      (fit_sig x y w x_0 init_params signal mu_init mu_vary false).params.f.vary
        = false ∧
      fittedValue
          (fit_sig x y w x_0 init_params signal mu_init mu_vary false).params.a sa
        = init_params.a ∧
      fittedValue
          (fit_sig x y w x_0 init_params signal mu_init mu_vary false).params.b sb
        = init_params.b ∧
      fittedValue
          (fit_sig x y w x_0 init_params signal mu_init mu_vary false).params.c sc
        = init_params.c ∧
      fittedValue
          (fit_sig x y w x_0 init_params signal mu_init mu_vary false).params.d sd
        = init_params.d ∧
      fittedValue
          (fit_sig x y w x_0 init_params signal mu_init mu_vary false).params.e se
        = init_params.e ∧
      fittedValue
          (fit_sig x y w x_0 init_params signal mu_init mu_vary false).params.f sf
        = init_params.f := by
  unfold fit_sig fittedValue
  norm_num

/-! ### Plotting

`plot_fit` renders two figures and returns the fit result it was given.
We embed the fit result as the fields `plot_fit` reads (`best_fit`,
`residual`), the rendering as the pure data placed on the axes, and the
call itself as that rendering paired with the returned result. -/

/-- The fields of an lmfit result that `plot_fit` consumes: the
best-fit curve over `x` and the normalized residual array. -/
structure FitResult where
  best_fit : List ℝ
  residual : List ℝ

/-- `np.max` over a nonempty array (the source applies it to the
residual array, which is nonempty for any fitted data set). -/
def npMax (l : List ℝ) : ℝ := l.foldl max (l.headD 0)

/-- `np.min` over a nonempty array. -/
def npMin (l : List ℝ) : ℝ := l.foldl min (l.headD 0)

/-- Python's `int()` on a real number: truncation toward zero. -/
def pyInt (r : ℝ) : ℤ := if 0 ≤ r then ⌊r⌋ else ⌈r⌉

/-- The histogram half-range computed in `plot_fit`, from the source:
`rangeMax = int(np.max(fit_result.residual))+1`. -/
def rangeMax (residual : List ℝ) : ℤ := pyInt (npMax residual) + 1

/-- One `ax.hist` call: the data it consumes and its configuration. -/
structure HistCall where
  data : List ℝ
  bins : ℕ
  density : Bool
  lo : ℝ
  hi : ℝ

/-- The location returned by `scipy.stats.norm.fit` on a sample: the
maximum-likelihood mean, i.e. the sample mean. -/
def normFitMean (l : List ℝ) : ℝ := l.foldl (· + ·) 0 / l.length

/-- The scale returned by `scipy.stats.norm.fit` on a sample: the
maximum-likelihood standard deviation (population form). -/
def normFitStd (l : List ℝ) : ℝ :=
  Real.sqrt (((l.map fun t => (t - normFitMean l) ^ 2).foldl (· + ·) 0) / l.length)

/-- The pure data `plot_fit` places on its axes: the data and best-fit
curves and x-limits of the top panel, the residual histogram with the
fitted normal annotation, and the second figure's de-normalized
residual scatter with its `±w` envelope. -/
structure PlotRender where
  data_x : List ℝ
  data_y : List ℝ
  fit_curve : List ℝ
  xlim : ℝ × ℝ
  hist : HistCall
  norm_mean : ℝ
  norm_std : ℝ
  vline : ℝ
  band_scatter : List ℝ
  band_upper : List ℝ
  band_lower : List ℝ

/-- `plot_fit`, from the source: draws data and `fit_result.best_fit`
over `[min(x), max(x)]`, the residual histogram with
`bins=15, density=True, range=(-rangeMax, rangeMax)` and the normal fit
of the residuals, then the scatter of `fit_result.residual*w` against
the `+w`/`-w` envelope, and returns `fit_result` itself. -/
def plot_fit (x y w : List ℝ) (fit_result : FitResult) :
    PlotRender × FitResult :=
  (⟨x, y, fit_result.best_fit, (npMin x, npMax x),
      ⟨fit_result.residual, 15, true,
        -((rangeMax fit_result.residual : ℤ) : ℝ),
        ((rangeMax fit_result.residual : ℤ) : ℝ)⟩,
      normFitMean fit_result.residual, normFitStd fit_result.residual,
      normFitMean fit_result.residual,
      List.zipWith (fun r t => r * t) fit_result.residual w,
      w, w.map fun t => -t⟩,
    fit_result)

lemma pyInt_lt (r : ℝ) : r < (pyInt r : ℝ) + 1 := by
  unfold pyInt
  by_cases h : 0 ≤ r
  · rw [if_pos h]
    exact Int.lt_floor_add_one r
  · rw [if_neg h]
    have := Int.le_ceil r
    linarith

lemma ceil_eq_floor_add_one_of_lt (r : ℝ) (h : (⌊r⌋ : ℝ) ≠ r) :
    ⌈r⌉ = ⌊r⌋ + 1 := by
  have h1 : ⌈r⌉ ≤ ⌊r⌋ + 1 := Int.ceil_le_floor_add_one r
  have hlt : (⌊r⌋ : ℝ) < r := lt_of_le_of_ne (Int.floor_le r) h
  have h2 : (⌊r⌋ : ℝ) < (⌈r⌉ : ℝ) := lt_of_lt_of_le hlt (Int.le_ceil r)
  have h3 : ⌊r⌋ < ⌈r⌉ := by exact_mod_cast h2
  omega

/-- C3 counterexample: for a fit result whose maximal normalized
residual is the integer `2`, the computed half-range is
`int(2)+1 = 3`, while `ceil(2) = 2`: `rangeMax` is not
`ceil(max(residual))`. -/
theorem plot_fit_rangeMax_ne_ceil :
    (plot_fit [0] [0] [1] ⟨[0], [2]⟩).1.hist.hi
      ≠ ((⌈npMax (⟨([0] : List ℝ), ([2] : List ℝ)⟩ : FitResult).residual⌉ : ℤ) : ℝ) := by
  have hmax : npMax (⟨([0] : List ℝ), ([2] : List ℝ)⟩ : FitResult).residual = 2 := by
    simp [npMax]
  have h2 : ((2 : ℝ)) = ((2 : ℤ) : ℝ) := by norm_num
  unfold plot_fit
  rw [hmax]
  unfold rangeMax pyInt
  rw [hmax, if_pos (by norm_num), h2, Int.floor_intCast, Int.ceil_intCast]
  norm_num

/-- C3 (amended): the residual histogram of `plot_fit` uses 15 bins,
density normalization and the symmetric range
`[−rangeMax, rangeMax]`, where `rangeMax` is the truncation toward zero
of the maximal residual plus one — equal to `ceil(max residual)` when
that maximum is non-negative and not an integer — and the maximal
residual always lies strictly inside the displayed range. -/
theorem plot_fit_hist_range (x y w : List ℝ) (r : FitResult)
    (h : r.residual ≠ []) :
    (plot_fit x y w r).1.hist.bins = 15 ∧
      (plot_fit x y w r).1.hist.density = true ∧
      (plot_fit x y w r).1.hist.lo = -((rangeMax r.residual : ℤ) : ℝ) ∧
      (plot_fit x y w r).1.hist.hi = ((rangeMax r.residual : ℤ) : ℝ) ∧
      rangeMax r.residual = pyInt (npMax r.residual) + 1 ∧
      npMax r.residual < ((rangeMax r.residual : ℤ) : ℝ) ∧
      (0 ≤ npMax r.residual → (⌊npMax r.residual⌋ : ℝ) ≠ npMax r.residual →
        rangeMax r.residual = ⌈npMax r.residual⌉) := by
  refine ⟨rfl, rfl, rfl, rfl, rfl, ?_, ?_⟩
  · have := pyInt_lt (npMax r.residual)
    unfold rangeMax
    push_cast
    linarith
  · intro hnonneg hnotint
    unfold rangeMax pyInt
    rw [if_pos hnonneg, ceil_eq_floor_add_one_of_lt _ hnotint]

theorem plot_fit_hist_range_witness :
    (([(2 : ℝ)] : List ℝ) ≠ []) ∧
      ((plot_fit [0] [0] [1] ⟨[0], [2]⟩).1.hist.bins = 15 ∧
        (plot_fit [0] [0] [1] ⟨[0], [2]⟩).1.hist.density = true ∧
        (plot_fit [0] [0] [1] ⟨[0], [2]⟩).1.hist.lo
          = -((rangeMax (⟨([0] : List ℝ), ([2] : List ℝ)⟩ : FitResult).residual : ℤ) : ℝ) ∧
        (plot_fit [0] [0] [1] ⟨[0], [2]⟩).1.hist.hi
          = ((rangeMax (⟨([0] : List ℝ), ([2] : List ℝ)⟩ : FitResult).residual : ℤ) : ℝ) ∧
        rangeMax (⟨([0] : List ℝ), ([2] : List ℝ)⟩ : FitResult).residual
          = pyInt (npMax (⟨([0] : List ℝ), ([2] : List ℝ)⟩ : FitResult).residual) + 1 ∧
        npMax (⟨([0] : List ℝ), ([2] : List ℝ)⟩ : FitResult).residual
          < ((rangeMax (⟨([0] : List ℝ), ([2] : List ℝ)⟩ : FitResult).residual : ℤ) : ℝ) ∧
        (0 ≤ npMax (⟨([0] : List ℝ), ([2] : List ℝ)⟩ : FitResult).residual →
          (⌊npMax (⟨([0] : List ℝ), ([2] : List ℝ)⟩ : FitResult).residual⌋ : ℝ)
            ≠ npMax (⟨([0] : List ℝ), ([2] : List ℝ)⟩ : FitResult).residual →
          rangeMax (⟨([0] : List ℝ), ([2] : List ℝ)⟩ : FitResult).residual
            = ⌈npMax (⟨([0] : List ℝ), ([2] : List ℝ)⟩ : FitResult).residual⌉)) :=
  ⟨by simp, plot_fit_hist_range [0] [0] [1] ⟨[0], [2]⟩ (by simp)⟩

/-- C8: `plot_fit` returns exactly the fit result it was given; the
residual array is consumed as-is by the histogram and the band scatter,
never replaced or altered, so rendering is its only other effect. -/
theorem plot_fit_returns_input (x y w : List ℝ) (r : FitResult) :
    (plot_fit x y w r).2 = r ∧
      (plot_fit x y w r).1.hist.data = r.residual ∧
      (plot_fit x y w r).1.band_scatter
        = List.zipWith (fun t u => t * u) r.residual w := by
  exact ⟨rfl, rfl, rfl⟩

end


